import Mathlib

/-!
Shallow embedding of the progressive voice-transcription pipeline of
`src/components/VoiceTranscriptionPipeline.tsx`.

Modelling conventions:
* JS strings are modelled as `List Char` (the relevant code only uses
  BMP characters, where JS `length`/`slice` indices agree with
  character counts).
* Binary blobs are modelled as lists of bytes; only their length and
  concatenation are observable to the pipeline logic.
* External collaborators (speech-to-text prompt, translator,
  summarizer) are modelled as oracle functions returning `Except`,
  where `.error msg` models the collaborator call throwing.
* The cooperative event-loop scheduling is modelled by explicit state
  passing; the React `setChunks(prev => ...)` read-modify-write updates
  become pure list transformations applied in program order.
-/

namespace VoicePipeline

/-- Transcription status of a transcript entry
(`type TranscriptionStatus`, line 10). -/
inductive TranscriptionStatus where
  | provisional
  | confirmed
  | reEvaluating
deriving DecidableEq, Repr

/-- The `transcription` field of a `ProcessedChunk` (lines 15-20). -/
structure TranscriptionField where
  text : List Char
  isProcessing : Bool
  error : Option (List Char)
  status : TranscriptionStatus
deriving DecidableEq, Repr

/-- The `translation` field of a `ProcessedChunk` (lines 21-25). -/
structure TranslationField where
  text : List Char
  isProcessing : Bool
  error : Option (List Char)
deriving DecidableEq, Repr

/-- An audio blob; the pipeline logic observes only the byte list
(size and concatenation). -/
structure Blob where
  bytes : List Nat
deriving DecidableEq, Repr

/-- `Blob.size` models JS `blob.size`. -/
def Blob.size (b : Blob) : Nat := b.bytes.length

/-- `new Blob(parts)`: concatenation of the parts' bytes. -/
def Blob.concat (parts : List Blob) : Blob :=
  ⟨parts.foldr (fun b acc => b.bytes ++ acc) []⟩

/-- One row of the visible transcript
(`interface ProcessedChunk`, lines 12-29).  UUIDs are modelled as
naturals, `Date` timestamps as integers (milliseconds). -/
structure ProcessedChunk where
  id : Nat
  timestamp : Int
  transcription : TranscriptionField
  translation : TranslationField
  audioBlob : Option Blob
  segmentId : Option Nat
deriving DecidableEq, Repr

/-! ### String helpers modelling the JS string operations used -/

/-- Whitespace recognised by the model of JS `String.prototype.trim`
(space, tab, line feed, carriage return, vertical tab, form feed; the
source never feeds other Unicode space characters through `trim`). -/
def jsWhitespace (c : Char) : Bool :=
  c = ' ' || c = '\t' || c = '\n' || c = '\r' || c = '\x0b' || c = '\x0c'

/-- Model of JS `s.trim()`: drop whitespace from both ends. -/
def jsTrim (s : List Char) : List Char :=
  ((s.dropWhile jsWhitespace).reverse.dropWhile jsWhitespace).reverse

/-- Model of JS `s.slice(-n)` for `n > 0`: the most-recent `n`-character
suffix (the whole string when it is shorter than `n`). -/
def sliceLast (n : Nat) (s : List Char) : List Char :=
  s.drop (s.length - n)

/-! ### `extractTranscription` (lines 257-314)

Step 1 and step 2 call the host `JSON.parse` and read the
`transcription` property.  The host parser is modelled by
`parseTranscriptionObject`, which accepts exactly the JSON texts of the
form `{ "transcription" : <string literal> }` (arbitrary JSON
whitespace, the common escapes `\" \\ \/ \n \t \r \b \f`).  On any
other input the model reports failure; for
`{"transcription": ...}`-shaped inputs (the only shape the collaborator
is prompted for) this agrees with `JSON.parse` followed by the
`typeof parsed.transcription === 'string'` check, except for `\uXXXX`
escapes, which no claim exercises. -/

/-- JSON whitespace (as skipped by `JSON.parse`). -/
def jsonWs (c : Char) : Bool :=
  c = ' ' || c = '\t' || c = '\n' || c = '\r'

/-- Skip JSON whitespace. -/
def skipWs (s : List Char) : List Char := s.dropWhile jsonWs

/-- Decode one JSON string escape character. -/
def jsonUnescape (c : Char) : Option Char :=
  if c = '"' then some '"'
  else if c = '\\' then some '\\'
  else if c = '/' then some '/'
  else if c = 'n' then some '\n'
  else if c = 't' then some '\t'
  else if c = 'r' then some '\r'
  else if c = 'b' then some '\x08'
  else if c = 'f' then some '\x0c'
  else none

/-- Parse the body of a JSON string literal (after the opening quote):
returns the decoded content and the remainder after the closing
quote. -/
def parseJsonStringBody : List Char → Option (List Char × List Char)
  | [] => none
  | '"' :: rest => some ([], rest)
  | '\\' :: c :: rest =>
    match jsonUnescape c with
    | none => none
    | some e =>
      match parseJsonStringBody rest with
      | none => none
      | some (s, r) => some (e :: s, r)
  | '\\' :: [] => none
  | c :: rest =>
    match parseJsonStringBody rest with
    | none => none
    | some (s, r) => some (c :: s, r)

/-- The literal `{"transcription"` used by the guards in steps 2, 4
and 5 (braces written with escapes). -/
def transLit : List Char := "\x7b\"transcription\"".data

/-- Model of `JSON.parse(s)` followed by reading a string-typed
`transcription` property, on the single-key object fragment described
above. -/
def parseTranscriptionObject (s : List Char) : Option (List Char) :=
  match skipWs s with
  | '\x7b' :: r =>
    match skipWs r with
    | '"' :: r2 =>
      match parseJsonStringBody r2 with
      | none => none
      | some (key, r3) =>
        if key = "transcription".data then
          match skipWs r3 with
          | ':' :: r4 =>
            match skipWs r4 with
            | '"' :: r5 =>
              match parseJsonStringBody r5 with
              | none => none
              | some (v, r6) =>
                match skipWs r6 with
                | '\x7d' :: r7 => if skipWs r7 = [] then some v else none
                | _ => none
            | _ => none
          | _ => none
        else none
    | _ => none
  | _ => none

/-- One global replacement of the two-character pattern `a b` by `sub`,
modelling `s.replace(/ab/g, sub)` for a fixed two-character pattern
(left-to-right, non-overlapping, continuing after each replacement). -/
def replacePair (a b sub : Char) : List Char → List Char
  | x :: y :: rest =>
    if x = a ∧ y = b then sub :: replacePair a b sub rest
    else x :: replacePair a b sub (y :: rest)
  | l => l

/-- The unescaping chain applied by steps 3 and 4:
`.replace(/\\n/g, '\n').replace(/\\"/g, '"').replace(/\\\\/g, '\\')`. -/
def jsUnescapeChain (s : List Char) : List Char :=
  replacePair '\\' '\\' '\\' (replacePair '\\' '"' '"' (replacePair '\\' 'n' '\n' s))

/-- If `pat` is a literal prefix of `s`, return the remainder. -/
def dropLit (pat s : List Char) : Option (List Char) :=
  if pat.isPrefixOf s then some (s.drop pat.length) else none

/-- Scan the regex fragment `((?:[^"\\]|\\.)*)"` from the position just
after an opening quote: returns the raw captured text (escapes kept
as-is, as a regex capture does) and the remainder after the closing
quote.  `\\.` does not match a line terminator, so a backslash followed
by one fails the whole match, like the JS regex. -/
def scanStringCapture : List Char → Option (List Char × List Char)
  | [] => none
  | '"' :: rest => some ([], rest)
  | '\\' :: c :: rest =>
    if c = '\n' ∨ c = '\r' then none
    else
      match scanStringCapture rest with
      | none => none
      | some (cap, r) => some ('\\' :: c :: cap, r)
  | '\\' :: [] => none
  | c :: rest =>
    match scanStringCapture rest with
    | none => none
    | some (cap, r) => some (c :: cap, r)

/-- Leftmost match of the step-3 regex
`/"transcription"\s*:\s*"((?:[^"\\]|\\.)*)"/`: returns the raw capture
of the first position where the whole pattern matches. -/
def findTranscriptionCapture : List Char → Option (List Char)
  | [] => none
  | c :: rest =>
    match dropLit "\"transcription\"".data (c :: rest) with
    | some r =>
      match skipWs r with
      | ':' :: r2 =>
        match skipWs r2 with
        | '"' :: r3 =>
          match scanStringCapture r3 with
          | some (cap, _) => some cap
          | none => findTranscriptionCapture rest
        | _ => findTranscriptionCapture rest
      | _ => findTranscriptionCapture rest
    | none => findTranscriptionCapture rest

/-- Step-4 regex `/^\{"transcription"\s*:\s*"(.*)$/s`: anchored at both
ends, the capture is everything after the opening quote (the `s` flag
makes `.` span newlines).  Returns the capture when the head pattern
matches. -/
def matchStep4 (trimmed : List Char) : Option (List Char) :=
  match dropLit transLit trimmed with
  | none => none
  | some r =>
    match skipWs r with
    | ':' :: r2 =>
      match skipWs r2 with
      | '"' :: r3 => some r3
      | _ => none
    | _ => none

/-- Whether a suffix matches the step-4 trailing regex `/"\s*\}?\s*$/`
from a position holding `"` (argument is the text after that quote). -/
def tailAfterQuote (l : List Char) : Bool :=
  match skipWs l with
  | [] => true
  | '\x7d' :: r => skipWs r = []
  | _ => false

/-- `extracted.replace(/"\s*\}?\s*$/, '')`: remove from the leftmost
quote whose suffix matches the trailing pattern to the end. -/
def stripTailQuote : List Char → List Char
  | [] => []
  | c :: rest =>
    if c = '"' ∧ tailAfterQuote rest then []
    else c :: stripTailQuote rest

/-- Whether a suffix matches the step-5 trailing regex `/"?\s*\}?$/`
when required to consume up to the end of the string. -/
def tailStep5 (l : List Char) : Bool :=
  match l with
  | '"' :: r =>
    (match skipWs r with
     | [] => true
     | '\x7d' :: r2 => r2 = []
     | _ => false)
  | _ =>
    (match skipWs l with
     | [] => true
     | '\x7d' :: r2 => r2 = []
     | _ => false)

/-- `trimmed.replace(/"?\s*\}?$/, '')`: remove the leftmost suffix
matching the trailing pattern. -/
def stripTailStep5 : List Char → List Char
  | [] => []
  | c :: rest =>
    if tailStep5 (c :: rest) then []
    else c :: stripTailStep5 rest

/-- `trimmed.replace(/^\{"transcription"\s*:\s*"?/, '')`: strip the
anchored head pattern when it matches (no colon means no match, hence
no change). -/
def stripHeadStep5 (trimmed : List Char) : List Char :=
  match dropLit transLit trimmed with
  | none => trimmed
  | some r =>
    match skipWs r with
    | ':' :: r2 =>
      (match skipWs r2 with
       | '"' :: r3 => r3
       | r3 => r3)
    | _ => trimmed

/-- Step 5 (lines 308-313): strip the known JSON head and trailing
delimiters when the text starts with `{"transcription"`, otherwise
return the trimmed text verbatim. -/
def extractFallback5 (trimmed : List Char) : List Char :=
  if transLit.isPrefixOf trimmed then
    stripTailStep5 (stripHeadStep5 trimmed)
  else trimmed

/-- Steps 4 then 5 (lines 298-313).  The step-4 capture is used only
when non-empty (`prefixMatch[1]` truthiness); its trailing `"`/`}` is
stripped and escapes are undone. -/
def extractFallback45 (trimmed : List Char) : List Char :=
  match matchStep4 trimmed with
  | some cap =>
    if cap ≠ [] then jsUnescapeChain (stripTailQuote cap)
    else extractFallback5 trimmed
  | none => extractFallback5 trimmed

/-- `extractTranscription` (lines 257-314): the tolerant fallback chain
turning a raw collaborator response into the transcription text. -/
def extractTranscription (response : List Char) : List Char :=
  let trimmed := jsTrim response
  match parseTranscriptionObject trimmed with
  | some t => t
  | none =>
    let step2 : Option (List Char) :=
      if transLit.isPrefixOf trimmed ∧ trimmed.getLast? ≠ some '\x7d' then
        parseTranscriptionObject
          ((if trimmed.getLast? ≠ some '"' then trimmed ++ ['"'] else trimmed) ++ ['\x7d'])
      else none
    match step2 with
    | some t => t
    | none =>
      match findTranscriptionCapture trimmed with
      | some cap =>
        if cap ≠ [] then jsUnescapeChain cap
        else extractFallback45 trimmed
      | none => extractFallback45 trimmed

/-! ### Checkpointed summarizer (`summarizeTextWithCheckpoint`, lines 316-417)

The summarization collaborator is an oracle `List Char → Except e s`:
`.ok s` models `summarizerSession.summarize` resolving with `s`,
`.error msg` models the whole `try` block throwing with message `msg`
(creation failures and summarize failures reach the same `catch`). -/

/-- `SummaryCheckpoint` (lines 58-61). -/
structure SummaryCheckpoint where
  summarizedUpTo : Nat
  previousSummary : List Char
deriving DecidableEq, Repr

/-- `OverallSummary` (lines 31-35): the displayed summary panel state. -/
structure OverallSummary where
  text : List Char
  isProcessing : Bool
  error : Option (List Char)
deriving DecidableEq, Repr

/-- Result of one `summarizeTextWithCheckpoint` call: the checkpoint
after the call, the displayed summary, and the list of inputs sent to
the summarization collaborator (empty when it was not invoked). -/
structure SummarizeResult where
  checkpoint : SummaryCheckpoint
  display : OverallSummary
  calls : List (List Char)
deriving DecidableEq, Repr

/-- `MAX_NEW_CONTENT_LENGTH` (line 317). -/
def MAX_NEW_CONTENT_LENGTH : Nat := 3000

/-- The `[これまでの要約]\n` label (line 361/365). -/
def priorSummaryLabel : List Char := "[これまでの要約]\n".data

/-- The `\n\n[新しい内容]\n` connective (line 361/365). -/
def newContentLabel : List Char := "\n\n[新しい内容]\n".data

/-- Model of JS `s.includes(pat)`: substring containment. -/
def containsSub (pat : List Char) : List Char → Bool
  | [] => pat.isPrefixOf []
  | c :: rest => pat.isPrefixOf (c :: rest) || containsSub pat rest

/-- JS error-message test
`errorMessage.includes('too large') || errorMessage.includes('too long')`
(line 394). -/
def isTooLargeMsg (msg : List Char) : Bool :=
  containsSub "too large".data msg || containsSub "too long".data msg

/-- The marker appended to the kept summary on an input-too-large
error when a previous summary exists (line 398). -/
def tooLargeKeptMarker : List Char :=
  "\n\n（新しい内容は長すぎるため追加されませんでした）".data

/-- The placeholder shown on an input-too-large error with no previous
summary (line 403). -/
def tooLargeSkipMarker : List Char :=
  "（テキストが長すぎるため要約をスキップしました）".data

/-- The `textToSummarize` construction of lines 350-379 (the value sent
to the summarization collaborator). -/
def buildTextToSummarize (fullText : List Char) (cp : SummaryCheckpoint) : List Char :=
  if cp.previousSummary ≠ [] ∧ cp.summarizedUpTo > 0 then
    let newContent := fullText.drop cp.summarizedUpTo
    if newContent.length > MAX_NEW_CONTENT_LENGTH then
      priorSummaryLabel ++ cp.previousSummary ++ newContentLabel ++
        "...".data ++ sliceLast MAX_NEW_CONTENT_LENGTH newContent
    else
      priorSummaryLabel ++ cp.previousSummary ++ newContentLabel ++ newContent
  else
    if fullText.length > MAX_NEW_CONTENT_LENGTH then
      "...".data ++ sliceLast MAX_NEW_CONTENT_LENGTH fullText
    else fullText

/-- The `textToSummarize` construction as the spec words it (§4.6):
`"[prior summary]\n{previousSummary}\n\n[new content]\n{newContent}"`
with `newContent` truncated to its most-recent 3000-character suffix —
the spec's English labels abstract the source's Japanese labels, so the
source labels are used; the spec mentions no ellipsis marker before the
truncated content. -/
def buildTextToSummarizeSpec (fullText : List Char) (cp : SummaryCheckpoint) : List Char :=
  if cp.previousSummary ≠ [] ∧ cp.summarizedUpTo > 0 then
    let newContent := fullText.drop cp.summarizedUpTo
    if newContent.length > MAX_NEW_CONTENT_LENGTH then
      priorSummaryLabel ++ cp.previousSummary ++ newContentLabel ++
        sliceLast MAX_NEW_CONTENT_LENGTH newContent
    else
      priorSummaryLabel ++ cp.previousSummary ++ newContentLabel ++ newContent
  else
    if fullText.length > MAX_NEW_CONTENT_LENGTH then
      "...".data ++ sliceLast MAX_NEW_CONTENT_LENGTH fullText
    else fullText

/-- `summarizeTextWithCheckpoint` (lines 319-417).  In every branch the
code sets `newCheckpointLength = fullText.length`, so a successful call
always advances the checkpoint to the full length.  JS truthiness of
`checkpoint.previousSummary` is non-emptiness. -/
def summarizeTextWithCheckpoint (fullText : List Char) (cp : SummaryCheckpoint)
    (summarize : List Char → Except (List Char) (List Char)) : SummarizeResult :=
  if (jsTrim fullText).length < 50 then
    ⟨cp, ⟨fullText, false, none⟩, []⟩
  else if fullText.length ≤ cp.summarizedUpTo ∧ cp.previousSummary ≠ [] then
    ⟨cp, ⟨cp.previousSummary, false, none⟩, []⟩
  else
    let t := buildTextToSummarize fullText cp
    match summarize t with
    | .ok summaryText =>
      ⟨⟨fullText.length, summaryText⟩, ⟨summaryText, false, none⟩, [t]⟩
    | .error msg =>
      if isTooLargeMsg msg then
        if cp.previousSummary ≠ [] then
          ⟨cp, ⟨cp.previousSummary ++ tooLargeKeptMarker, false, none⟩, [t]⟩
        else
          ⟨cp, ⟨tooLargeSkipMarker, false, none⟩, [t]⟩
      else
        ⟨cp, ⟨cp.previousSummary, false, some msg⟩, [t]⟩

/-- One summary-update step: a `fullConcatenatedText` together with the
collaborator behaviour for that call. -/
def SummaryStep : Type :=
  List Char × (List Char → Except (List Char) (List Char))

/-- The checkpoint values observed along a sequence of
`summarizeTextWithCheckpoint` calls, starting from `cp` (the state the
mutable `checkpointRef` passes through). -/
def checkpointTrace (cp : SummaryCheckpoint) : List SummaryStep → List SummaryCheckpoint
  | [] => [cp]
  | (t, o) :: rest =>
    cp :: checkpointTrace (summarizeTextWithCheckpoint t cp o).checkpoint rest

/-! ### Segment re-evaluation (`reEvaluateSegment` lines 519-636,
`triggerReEvaluation` lines 883-921)

The transcript list is the shared store; each `setChunks(prev => ...)`
becomes one pure list transformation, applied in program order. -/

/-- JS `.sort((a, b) => a.timestamp.getTime() - b.timestamp.getTime())`:
a stable sort by timestamp (ES2019 requires `Array.prototype.sort` to
be stable). -/
def sortByTimestamp (l : List ProcessedChunk) : List ProcessedChunk :=
  l.mergeSort (fun a b => a.timestamp ≤ b.timestamp)

/-- The sealing filter of `triggerReEvaluation` (lines 901-903): keep
every entry of other segments, and of this segment only those whose
status is already `confirmed`. -/
def sealFilter (sid : Nat) (l : List ProcessedChunk) : List ProcessedChunk :=
  l.filter (fun c => c.segmentId ≠ some sid ∨ c.transcription.status = .confirmed)

/-- The first update of `reEvaluateSegment` (lines 527-536): mark every
entry of the segment as `re-evaluating`. -/
def markReEvaluating (sid : Nat) (l : List ProcessedChunk) : List ProcessedChunk :=
  l.map (fun c =>
    if c.segmentId = some sid then
      { c with transcription := { c.transcription with status := .reEvaluating } }
    else c)

/-- The consolidation update of `reEvaluateSegment` (lines 581-618): the
first entry of the segment carries the consolidated confirmed text and
translation, its siblings are deleted, and the list is re-sorted by
timestamp; when the segment has no entries the list is returned
unchanged (`if (segmentChunks.length === 0) return prev`). -/
def consolidateSegment (sid : Nat) (transcription translated : List Char)
    (l : List ProcessedChunk) : List ProcessedChunk :=
  let segmentChunks := l.filter (fun c => c.segmentId = some sid)
  let otherChunks := l.filter (fun c => ¬ c.segmentId = some sid)
  match segmentChunks with
  | [] => l
  | firstChunk :: _ =>
    sortByTimestamp (otherChunks ++
      [{ firstChunk with
          transcription := ⟨transcription, false, none, .confirmed⟩,
          translation := ⟨translated, false, none⟩ }])

/-- The `catch` update of `reEvaluateSegment` (lines 622-631): on any
re-evaluation failure the segment's entries are marked `confirmed`
as-is. -/
def reEvalFallbackConfirm (sid : Nat) (l : List ProcessedChunk) : List ProcessedChunk :=
  l.map (fun c =>
    if c.segmentId = some sid then
      { c with transcription := { c.transcription with status := .confirmed } }
    else c)

/-- `reEvaluateSegment` (lines 519-636), as its overall effect on the
transcript list.  `stt` models `languageModelSession.prompt` on the
combined blob (its raw response is fed through `extractTranscription`);
`translate` models `translatorSession.translate` on the extracted text.
An `.error` from either models the corresponding await throwing, which
lands in the `catch`. -/
def reEvaluateSegment (sid : Nat) (combined : Blob)
    (stt : Blob → Except (List Char) (List Char))
    (translate : List Char → Except (List Char) (List Char))
    (l : List ProcessedChunk) : List ProcessedChunk :=
  let l1 := markReEvaluating sid l
  match stt combined with
  | .error _ => reEvalFallbackConfirm sid l1
  | .ok raw =>
    let transcription := extractTranscription raw
    match translate transcription with
    | .error _ => reEvalFallbackConfirm sid l1
    | .ok translated => consolidateSegment sid transcription translated l1

/-- `triggerReEvaluation` (lines 883-921), as its effect on the
transcript list: with an empty audio buffer nothing happens; otherwise
the segment is sealed (provisional entries removed, in-flight
provisional calls cancelled) and the buffered audio is combined and
re-evaluated.  The buffer reset and fresh segment id / abort controller
allocation touch no transcript state. -/
def triggerReEvaluation (sid : Nat) (buffer : List Blob)
    (stt : Blob → Except (List Char) (List Char))
    (translate : List Char → Except (List Char) (List Char))
    (l : List ProcessedChunk) : List ProcessedChunk :=
  if buffer = [] then l
  else reEvaluateSegment sid (Blob.concat buffer) stt translate (sealFilter sid l)

/-! ### `processChunk` (lines 639-818)

The function has six `await` points; `checkAborted()` runs before the
first and after every one of them (seven checks, indices 0-6).  In the
cooperative event loop an `abort()` becomes visible while the task is
suspended, so it is modelled by the index of the first check that would
observe it (`abortAt = some k`).  When the awaited collaborator promise
itself rejects at that same suspension point, the rejection — not the
abort check — resumes the task, exactly as in JS; the model therefore
consults the oracle outcome before the following check. -/

/-- A collaborator invocation performed by `processChunk`. -/
inductive CollabCall where
  | sttCreate
  | sttPrompt
  | trCreate
  | trTranslate
deriving DecidableEq, Repr

/-- How one `processChunk` call ended. -/
inductive ProcOutcome where
  | tooSmall
  | aborted
  | errored (msg : List Char)
  | success
deriving DecidableEq, Repr

/-- Result of one `processChunk` call: the transcript afterwards, the
collaborator calls made, and how the call ended. -/
structure ProcResult where
  chunks : List ProcessedChunk
  calls : List CollabCall
  outcome : ProcOutcome
deriving DecidableEq, Repr

/-- Whether the cancellation check with index `k` observes the abort. -/
def abortSeen (abortAt : Option Nat) (k : Nat) : Bool :=
  match abortAt with
  | none => false
  | some a => a ≤ k

/-- The `ABORTED` branch of the `catch` (lines 787-791): silently remove
the call's own entry. -/
def abortRemove (chunkId : Nat) (l : List ProcessedChunk) : List ProcessedChunk :=
  l.filter (fun c => c.id ≠ chunkId)

/-- The non-`ABORTED` branch of the `catch` (lines 795-809): attach the
error to whichever of the entry's fields was still in progress; fields
already completed are left untouched. -/
def markChunkError (chunkId : Nat) (msg : List Char)
    (l : List ProcessedChunk) : List ProcessedChunk :=
  l.map (fun c =>
    if c.id = chunkId then
      { c with
          transcription :=
            if c.transcription.isProcessing then
              ⟨[], false, some msg, .confirmed⟩
            else c.transcription,
          translation :=
            if c.translation.isProcessing then ⟨[], false, some msg⟩
            else c.translation }
    else c)

/-- The mid-flight update after transcription succeeds (lines 728-742):
store the extracted text (status unchanged per `isProvisional`) and
mark the translation as in progress. -/
def setTranscriptionResult (chunkId : Nat) (text : List Char) (isProvisional : Bool)
    (l : List ProcessedChunk) : List ProcessedChunk :=
  l.map (fun c =>
    if c.id = chunkId then
      { c with
          transcription :=
            ⟨text, false, none, if isProvisional then .provisional else .confirmed⟩,
          translation := ⟨[], true, none⟩ }
    else c)

/-- The final update after translation succeeds (lines 759-767). -/
def setTranslationResult (chunkId : Nat) (text : List Char)
    (l : List ProcessedChunk) : List ProcessedChunk :=
  l.map (fun c =>
    if c.id = chunkId then { c with translation := ⟨text, false, none⟩ } else c)

/-- `processChunk` (lines 639-818).  `lmCreate`, `promptRes`,
`trCreate`, `translateRes` are the outcomes of the four fallible
collaborator awaits (`blobToArrayBuffer` cannot reject); `abortAt`
as described above.  The pending-provisional-id bookkeeping and the
summary refresh touch no transcript state and are omitted. -/
def processChunk (l0 : List ProcessedChunk) (audioBlob : Blob) (isProvisional : Bool)
    (segmentId : Option Nat) (chunkId : Nat) (ts : Int) (abortAt : Option Nat)
    (lmCreate : Except (List Char) Unit) (promptRes : Except (List Char) (List Char))
    (trCreate : Except (List Char) Unit) (translateRes : Except (List Char) (List Char)) :
    ProcResult :=
  if audioBlob.size < 1000 then ⟨l0, [], .tooSmall⟩
  else
    let newChunk : ProcessedChunk :=
      { id := chunkId, timestamp := ts,
        transcription := ⟨[], true, none, if isProvisional then .provisional else .confirmed⟩,
        translation := ⟨[], false, none⟩,
        audioBlob := if isProvisional then some audioBlob else none,
        segmentId := segmentId }
    let l1 := l0 ++ [newChunk]
    if abortSeen abortAt 0 then ⟨abortRemove chunkId l1, [], .aborted⟩
    else
      match lmCreate with
      | .error msg => ⟨markChunkError chunkId msg l1, [.sttCreate], .errored msg⟩
      | .ok _ =>
        if abortSeen abortAt 1 then ⟨abortRemove chunkId l1, [.sttCreate], .aborted⟩
        else if abortSeen abortAt 2 then ⟨abortRemove chunkId l1, [.sttCreate], .aborted⟩
        else
          match promptRes with
          | .error msg =>
            ⟨markChunkError chunkId msg l1, [.sttCreate, .sttPrompt], .errored msg⟩
          | .ok raw =>
            if abortSeen abortAt 3 then
              ⟨abortRemove chunkId l1, [.sttCreate, .sttPrompt], .aborted⟩
            else
              let text := extractTranscription raw
              let l2 := setTranscriptionResult chunkId text isProvisional l1
              if abortSeen abortAt 4 then
                ⟨abortRemove chunkId l2, [.sttCreate, .sttPrompt], .aborted⟩
              else
                match trCreate with
                | .error msg =>
                  ⟨markChunkError chunkId msg l2,
                    [.sttCreate, .sttPrompt, .trCreate], .errored msg⟩
                | .ok _ =>
                  if abortSeen abortAt 5 then
                    ⟨abortRemove chunkId l2,
                      [.sttCreate, .sttPrompt, .trCreate], .aborted⟩
                  else
                    match translateRes with
                    | .error msg =>
                      ⟨markChunkError chunkId msg l2,
                        [.sttCreate, .sttPrompt, .trCreate, .trTranslate], .errored msg⟩
                    | .ok translated =>
                      if abortSeen abortAt 6 then
                        ⟨abortRemove chunkId l2,
                          [.sttCreate, .sttPrompt, .trCreate, .trTranslate], .aborted⟩
                      else
                        ⟨setTranslationResult chunkId translated l2,
                          [.sttCreate, .sttPrompt, .trCreate, .trTranslate], .success⟩

/-! ### VAD loop (`startAudioAnalysis`, lines 824-877) and the recorder
`onstop` handler (lines 948-992)

One animation frame is a pair `(now, average)`: the `Date.now()`
timestamp and the computed average amplitude.  Stopping means
`mediaRecorder.stop()` was called and the loop returned, so later
frames of the trace are ignored. -/

/-- VAD-relevant mutable state of the analysis loop:
`hasSpokenRef`, `silenceStartRef`, and whether the recorder was
stopped by silence detection. -/
structure VadState where
  hasSpoken : Bool
  silenceStart : Option Int
  stopped : Bool
deriving DecidableEq, Repr

/-- State at `startNewRecorder` (lines 927-929): flags reset, recorder
running. -/
def initVadState : VadState := ⟨false, none, false⟩

/-- `MIN_RECORDING_DURATION` (line 119). -/
def MIN_RECORDING_DURATION : Int := 500

/-- One VAD-mode animation frame (lines 841-867). `θ` is
`silenceThreshold`, `dur` is `silenceDuration`, `t0` is
`recordingStartTimeRef`. -/
def vadStep (θ dur t0 : Int) (st : VadState) (frame : Int × Int) : VadState :=
  if st.stopped then st
  else
    let now := frame.1
    let average := frame.2
    if average > θ then { hasSpoken := true, silenceStart := none, stopped := false }
    else
      if st.hasSpoken ∧ now - t0 > MIN_RECORDING_DURATION then
        match st.silenceStart with
        | none => { st with silenceStart := some now }
        | some s => if now - s > dur then { st with stopped := true } else st
      else st

/-- Run the VAD analysis loop over an amplitude trace. -/
def vadRun (θ dur t0 : Int) (frames : List (Int × Int)) : VadState :=
  frames.foldl (vadStep θ dur t0) initVadState

/-- Recording mode (line 84). -/
inductive RecordingMode where
  | vad
  | fixed
deriving DecidableEq, Repr

/-- The forwarding decision of the recorder's `onstop` handler
(lines 948-986): returns the combined blob handed to `processChunk`,
or `none` when the chunk is dropped.  In VAD mode only chunks with at
least one speaking period are processed; blobs under 1000 bytes are
dropped. -/
def onStopForwardedBlob (mode : RecordingMode) (hasSpoken : Bool)
    (recorded : List Blob) : Option Blob :=
  let shouldProcess := mode = .fixed ∨ hasSpoken
  if recorded ≠ [] ∧ shouldProcess then
    let audioBlob := Blob.concat recorded
    if audioBlob.size ≥ 1000 then some audioBlob else none
  else none

/-! ### Concrete instances used in the closed theorems below -/

/-- A transcript consisting of one completed provisional entry of
segment 1 (the normal state of a segment when it is sealed). -/
def sealedSegmentEntry : ProcessedChunk :=
  { id := 1, timestamp := 0,
    transcription := ⟨"hel".data, false, none, .provisional⟩,
    translation := ⟨"ho".data, false, none⟩,
    audioBlob := some ⟨[0]⟩, segmentId := some 1 }

/-- A well-formed collaborator response for the re-evaluated segment. -/
def reEvalResponse : List Char := "\x7b\"transcription\": \"hello\"\x7d".data

/-- A 50-character input text (long enough to reach the summarizer). -/
def fiftyChars : List Char := List.replicate 50 'a'

/-- A summarization collaborator that returns an empty summary. -/
def emptySummaryOracle : List Char → Except (List Char) (List Char) := fun _ => .ok []

/-- A summarization collaborator that returns `"s"`. -/
def constSummaryOracle : List Char → Except (List Char) (List Char) := fun _ => .ok ['s']

/-- A summarization collaborator that always throws `"err"`. -/
def failingSummaryOracle : List Char → Except (List Char) (List Char) := fun _ => .error "err".data

/-- A checkpoint with a prior summary of one page already folded in. -/
def tinyCheckpoint : SummaryCheckpoint := ⟨1, ['p']⟩

/-- A full text whose new content (after offset 1) is 3001 characters,
exceeding `MAX_NEW_CONTENT_LENGTH`. -/
def longFullText : List Char := 'a' :: List.replicate 3001 'b'

/-- A 1000-byte audio blob (the smallest size `processChunk` accepts). -/
def blob1000 : Blob := ⟨List.replicate 1000 0⟩

end VoicePipeline

namespace VoicePipeline

/-! ## Theorems -/

/-- `trim` never lengthens a string. -/
theorem jsTrim_length_le (s : List Char) : (jsTrim s).length ≤ s.length := by
  unfold jsTrim
  calc ((s.dropWhile jsWhitespace).reverse.dropWhile jsWhitespace).reverse.length
      = ((s.dropWhile jsWhitespace).reverse.dropWhile jsWhitespace).length := by
        exact List.length_reverse _
    _ ≤ (s.dropWhile jsWhitespace).reverse.length :=
        (List.dropWhile_sublist _).length_le
    _ = (s.dropWhile jsWhitespace).length := List.length_reverse _
    _ ≤ s.length := (List.dropWhile_sublist _).length_le

/-- C5: the transcription-extraction fallback chain, applied to the
truncated, unterminated collaborator response `{"transcription": "hello`,
returns the extracted text `hello` (step 2 of the chain repairs the
missing closing delimiters) and no error is raised. -/
theorem extractTranscription_truncated_hello :
    extractTranscription "\x7b\"transcription\": \"hello".data = "hello".data := by
  decide

/-- C9: when `fullConcatenatedText` is shorter than 50 characters, the
summarization collaborator is not invoked and the displayed summary is
the raw input text itself. -/
theorem summarize_short_text_bypass (fullText : List Char) (cp : SummaryCheckpoint)
    (summarize : List Char → Except (List Char) (List Char))
    (h : fullText.length < 50) :
    (summarizeTextWithCheckpoint fullText cp summarize).calls = [] ∧
    (summarizeTextWithCheckpoint fullText cp summarize).display.text = fullText := by
  have htrim : (jsTrim fullText).length < 50 :=
    lt_of_le_of_lt (jsTrim_length_le fullText) h
  unfold summarizeTextWithCheckpoint
  rw [if_pos htrim]
  exact ⟨rfl, rfl⟩

/-- Witness for C9 at a concrete 30-character input (scenario D). -/
theorem summarize_short_text_bypass_witness :
    (List.replicate 30 'a').length < 50 ∧
    (summarizeTextWithCheckpoint (List.replicate 30 'a') ⟨0, []⟩ constSummaryOracle).calls = [] ∧
    (summarizeTextWithCheckpoint (List.replicate 30 'a') ⟨0, []⟩ constSummaryOracle).display.text
      = List.replicate 30 'a' :=
  ⟨by decide, summarize_short_text_bypass _ _ _ (by decide)⟩

/-- C10: the short-text bypass leaves both checkpoint fields unchanged
(the code returns before ever touching `checkpointRef`). -/
theorem summarize_short_text_bypass_frame (fullText : List Char) (cp : SummaryCheckpoint)
    (summarize : List Char → Except (List Char) (List Char))
    (h : (jsTrim fullText).length < 50) :
    (summarizeTextWithCheckpoint fullText cp summarize).checkpoint = cp := by
  unfold summarizeTextWithCheckpoint
  rw [if_pos h]

/-- Witness for C10 at a concrete short input with a non-trivial
checkpoint. -/
theorem summarize_short_text_bypass_frame_witness :
    (jsTrim "  ab  ".data).length < 50 ∧
    (summarizeTextWithCheckpoint "  ab  ".data ⟨7, "old".data⟩ constSummaryOracle).checkpoint
      = ⟨7, "old".data⟩ :=
  ⟨by decide, summarize_short_text_bypass_frame _ _ _ (by decide)⟩

/-- C7: an audio chunk under 1000 bytes is dropped by `processChunk`
before any transcript entry is created and before any collaborator is
invoked: the transcript is unchanged and the call list is empty. -/
theorem processChunk_small_chunk_discard (l0 : List ProcessedChunk) (audioBlob : Blob)
    (isProvisional : Bool) (segmentId : Option Nat) (chunkId : Nat) (ts : Int)
    (abortAt : Option Nat) (lmCreate : Except (List Char) Unit)
    (promptRes : Except (List Char) (List Char)) (trCreate : Except (List Char) Unit)
    (translateRes : Except (List Char) (List Char))
    (h : audioBlob.size < 1000) :
    processChunk l0 audioBlob isProvisional segmentId chunkId ts abortAt
      lmCreate promptRes trCreate translateRes = ⟨l0, [], .tooSmall⟩ := by
  unfold processChunk
  rw [if_pos h]

/-- Witness for C7 at a concrete 2-byte chunk. -/
theorem processChunk_small_chunk_discard_witness :
    (Blob.mk [0, 1]).size < 1000 ∧
    processChunk [sealedSegmentEntry] ⟨[0, 1]⟩ true (some 1) 7 0 none
      (.ok ()) (.ok []) (.ok ()) (.ok []) = ⟨[sealedSegmentEntry], [], .tooSmall⟩ :=
  ⟨by decide, processChunk_small_chunk_discard _ _ _ _ _ _ _ _ _ _ _ (by decide)⟩

/-- C1 (code divergence): a segment holding one completed provisional
entry is sealed and its re-evaluation succeeds (`{"transcription":
"hello"}`, translation `hola`), yet the transcript afterwards holds
*zero* entries for the segment — sealing removed the provisional entry
(completed provisional entries still have status `provisional`) and the
consolidation step returns the list unchanged when it finds no segment
entries, discarding the consolidated confirmed text instead of leaving
exactly one confirmed entry. -/
theorem triggerReEvaluation_success_drops_segment :
    triggerReEvaluation 1 [⟨[0]⟩]
      (fun _ => .ok reEvalResponse)
      (fun _ => .ok "hola".data)
      [sealedSegmentEntry] = [] := by
  decide

/-- C3 (counterexample): with a collaborator that returns an *empty*
summary, the first call on a 50-character text succeeds, yet the second
call with the identical text invokes the collaborator again — the
idempotence guard requires a non-empty `previousSummary` (JS
truthiness), which an empty successful summary fails. -/
theorem summarize_repeat_invokes_again :
    (summarizeTextWithCheckpoint fiftyChars ⟨0, []⟩ emptySummaryOracle).calls = [fiftyChars] ∧
    (summarizeTextWithCheckpoint fiftyChars
        (summarizeTextWithCheckpoint fiftyChars ⟨0, []⟩ emptySummaryOracle).checkpoint
        emptySummaryOracle).calls = [fiftyChars] ∧
    (summarizeTextWithCheckpoint fiftyChars
        (summarizeTextWithCheckpoint fiftyChars ⟨0, []⟩ emptySummaryOracle).checkpoint
        emptySummaryOracle).calls ≠ [] := by
  refine ⟨?_, ?_, ?_⟩ <;> decide

/-- C3 (amended): calling the summary update twice with identical
`fullConcatenatedText`, where the first call succeeded with a
*non-empty* summary text, yields the same summary text both times, and
the second call neither advances the checkpoint nor invokes the
summarization collaborator. -/
theorem summarize_idempotent_second_call (fullText : List Char) (cp : SummaryCheckpoint)
    (summarize : List Char → Except (List Char) (List Char)) (t s : List Char)
    (hcalls : (summarizeTextWithCheckpoint fullText cp summarize).calls = [t])
    (hok : summarize t = .ok s) (hne : s ≠ []) :
    (summarizeTextWithCheckpoint fullText
        (summarizeTextWithCheckpoint fullText cp summarize).checkpoint summarize).display.text
      = (summarizeTextWithCheckpoint fullText cp summarize).display.text ∧
    (summarizeTextWithCheckpoint fullText
        (summarizeTextWithCheckpoint fullText cp summarize).checkpoint summarize).checkpoint
      = (summarizeTextWithCheckpoint fullText cp summarize).checkpoint ∧
    (summarizeTextWithCheckpoint fullText
        (summarizeTextWithCheckpoint fullText cp summarize).checkpoint summarize).calls
      = [] := by
  by_cases h1 : (jsTrim fullText).length < 50
  · exfalso
    unfold summarizeTextWithCheckpoint at hcalls
    rw [if_pos h1] at hcalls
    exact absurd hcalls (by simp)
  by_cases h2 : fullText.length ≤ cp.summarizedUpTo ∧ cp.previousSummary ≠ []
  · exfalso
    unfold summarizeTextWithCheckpoint at hcalls
    rw [if_neg h1, if_pos h2] at hcalls
    exact absurd hcalls (by simp)
  have ht : t = buildTextToSummarize fullText cp := by
    simp only [summarizeTextWithCheckpoint] at hcalls
    rw [if_neg h1, if_neg h2] at hcalls
    cases hm : summarize (buildTextToSummarize fullText cp) with
    | ok s' =>
      rw [hm] at hcalls
      simp at hcalls
      exact hcalls.symm
    | error msg =>
      rw [hm] at hcalls
      by_cases he : isTooLargeMsg msg <;> by_cases hp : cp.previousSummary = [] <;>
        simp [he, hp] at hcalls <;> exact hcalls.symm
  subst ht
  have hr1 : summarizeTextWithCheckpoint fullText cp summarize
      = ⟨⟨fullText.length, s⟩, ⟨s, false, none⟩, [buildTextToSummarize fullText cp]⟩ := by
    simp only [summarizeTextWithCheckpoint]
    rw [if_neg h1, if_neg h2, hok]
  rw [hr1]
  unfold summarizeTextWithCheckpoint
  rw [if_neg h1, if_pos ⟨le_refl _, hne⟩]
  exact ⟨rfl, rfl, rfl⟩

/-- Witness for the amended C3 at a concrete input with a non-empty
summary. -/
theorem summarize_idempotent_second_call_witness :
    (summarizeTextWithCheckpoint fiftyChars ⟨0, []⟩ constSummaryOracle).calls = [fiftyChars] ∧
    constSummaryOracle fiftyChars = .ok ['s'] ∧
    (summarizeTextWithCheckpoint fiftyChars
        (summarizeTextWithCheckpoint fiftyChars ⟨0, []⟩ constSummaryOracle).checkpoint
        constSummaryOracle).display.text
      = (summarizeTextWithCheckpoint fiftyChars ⟨0, []⟩ constSummaryOracle).display.text :=
  ⟨by decide, rfl,
    (summarize_idempotent_second_call fiftyChars ⟨0, []⟩ constSummaryOracle fiftyChars ['s']
      (by decide) rfl (by decide)).1⟩

/-- In the truncating case the code builds the collaborator input with
an ellipsis marker between the new-content label and the truncated
suffix. -/
theorem buildTextToSummarize_trunc (fullText : List Char) (cp : SummaryCheckpoint)
    (hprev : cp.previousSummary ≠ []) (hupto : 0 < cp.summarizedUpTo)
    (hlong : MAX_NEW_CONTENT_LENGTH < (fullText.drop cp.summarizedUpTo).length) :
    buildTextToSummarize fullText cp
      = priorSummaryLabel ++ cp.previousSummary ++ newContentLabel ++
          "...".data ++ sliceLast MAX_NEW_CONTENT_LENGTH (fullText.drop cp.summarizedUpTo) := by
  simp only [buildTextToSummarize]
  rw [if_pos ⟨hprev, hupto⟩, if_pos hlong]

/-- In the truncating case the spec-worded builder has no ellipsis
marker. -/
theorem buildTextToSummarizeSpec_trunc (fullText : List Char) (cp : SummaryCheckpoint)
    (hprev : cp.previousSummary ≠ []) (hupto : 0 < cp.summarizedUpTo)
    (hlong : MAX_NEW_CONTENT_LENGTH < (fullText.drop cp.summarizedUpTo).length) :
    buildTextToSummarizeSpec fullText cp
      = priorSummaryLabel ++ cp.previousSummary ++ newContentLabel ++
          sliceLast MAX_NEW_CONTENT_LENGTH (fullText.drop cp.summarizedUpTo) := by
  simp only [buildTextToSummarizeSpec]
  rw [if_pos ⟨hprev, hupto⟩, if_pos hlong]

/-- C8 (counterexample): on a 3002-character full text with 3001
characters of new content, the text the code sends to the collaborator
differs from the labeled format the claim states — the code inserts an
ellipsis marker `...` before the truncated new content. -/
theorem buildTextToSummarize_ellipsis_counterexample :
    buildTextToSummarize longFullText tinyCheckpoint ≠
    buildTextToSummarizeSpec longFullText tinyCheckpoint := by
  have hdrop : longFullText.drop tinyCheckpoint.summarizedUpTo = List.replicate 3001 'b' := by
    rw [longFullText, tinyCheckpoint, List.drop_one, List.tail_cons]
  have hlong : MAX_NEW_CONTENT_LENGTH <
      (longFullText.drop tinyCheckpoint.summarizedUpTo).length := by
    rw [hdrop, List.length_replicate, MAX_NEW_CONTENT_LENGTH]
    norm_num
  intro h
  rw [buildTextToSummarize_trunc longFullText tinyCheckpoint (by decide) (by decide) hlong,
    buildTextToSummarizeSpec_trunc longFullText tinyCheckpoint (by decide) (by decide) hlong] at h
  have hl := congrArg List.length h
  simp only [List.length_append, List.length_cons, List.length_nil] at hl
  omega

/-- C8 (amended): with a prior summary, a positive checkpoint and new
content present, the collaborator input is
`{label}{previousSummary}{label}{newContent}` where `newContent` is the
slice from `summarizedUpTo`, truncated to its most-recent 3000-character
suffix and prefixed by an ellipsis marker `...` when it exceeds 3000
characters; on success `summarizedUpTo` becomes
`fullConcatenatedText.length` and `previousSummary` the collaborator's
result. -/
theorem summarize_checkpoint_prompt_format (fullText : List Char) (cp : SummaryCheckpoint)
    (summarize : List Char → Except (List Char) (List Char)) (s : List Char)
    (hprev : cp.previousSummary ≠ []) (hupto : 0 < cp.summarizedUpTo)
    (hnew : cp.summarizedUpTo < fullText.length)
    (h50 : 50 ≤ (jsTrim fullText).length)
    (hok : summarize (buildTextToSummarize fullText cp) = .ok s) :
    buildTextToSummarize fullText cp
      = priorSummaryLabel ++ cp.previousSummary ++ newContentLabel ++
          (if MAX_NEW_CONTENT_LENGTH < (fullText.drop cp.summarizedUpTo).length then
            "...".data ++ sliceLast MAX_NEW_CONTENT_LENGTH (fullText.drop cp.summarizedUpTo)
          else fullText.drop cp.summarizedUpTo) ∧
    (summarizeTextWithCheckpoint fullText cp summarize).calls
      = [buildTextToSummarize fullText cp] ∧
    (summarizeTextWithCheckpoint fullText cp summarize).checkpoint
      = ⟨fullText.length, s⟩ := by
  refine ⟨?_, ?_, ?_⟩
  · by_cases hbig : MAX_NEW_CONTENT_LENGTH < (fullText.drop cp.summarizedUpTo).length
    · rw [buildTextToSummarize_trunc fullText cp hprev hupto hbig, if_pos hbig]
      simp [List.append_assoc]
    · simp only [buildTextToSummarize]
      rw [if_pos ⟨hprev, hupto⟩, if_neg hbig, if_neg hbig]
  · have h1 : ¬ (jsTrim fullText).length < 50 := by omega
    have h2 : ¬ (fullText.length ≤ cp.summarizedUpTo ∧ cp.previousSummary ≠ []) := by
      rintro ⟨hle, -⟩; omega
    simp only [summarizeTextWithCheckpoint]
    rw [if_neg h1, if_neg h2, hok]
  · have h1 : ¬ (jsTrim fullText).length < 50 := by omega
    have h2 : ¬ (fullText.length ≤ cp.summarizedUpTo ∧ cp.previousSummary ≠ []) := by
      rintro ⟨hle, -⟩; omega
    simp only [summarizeTextWithCheckpoint]
    rw [if_neg h1, if_neg h2, hok]

/-- Witness for the amended C8 at a concrete input (60 characters, 50
of them new). -/
theorem summarize_checkpoint_prompt_format_witness :
    (⟨10, ['p']⟩ : SummaryCheckpoint).summarizedUpTo < (List.replicate 60 'a').length ∧
    (summarizeTextWithCheckpoint (List.replicate 60 'a') ⟨10, ['p']⟩ constSummaryOracle).checkpoint
      = ⟨(List.replicate 60 'a').length, ['s']⟩ :=
  ⟨by decide,
    (summarize_checkpoint_prompt_format (List.replicate 60 'a') ⟨10, ['p']⟩
      constSummaryOracle ['s'] (by decide) (by decide) (by decide) (by decide) rfl).2.2⟩

/-- A single summary-update call either leaves `summarizedUpTo`
unchanged (bypass, no-op and failure paths) or sets it to the full
text's length (success path). -/
theorem summarize_checkpoint_upTo_cases (fullText : List Char) (cp : SummaryCheckpoint)
    (summarize : List Char → Except (List Char) (List Char)) :
    (summarizeTextWithCheckpoint fullText cp summarize).checkpoint.summarizedUpTo
        = cp.summarizedUpTo ∨
    (summarizeTextWithCheckpoint fullText cp summarize).checkpoint.summarizedUpTo
        = fullText.length := by
  simp only [summarizeTextWithCheckpoint]
  by_cases h1 : (jsTrim fullText).length < 50
  · rw [if_pos h1]; exact .inl rfl
  rw [if_neg h1]
  by_cases h2 : fullText.length ≤ cp.summarizedUpTo ∧ cp.previousSummary ≠ []
  · rw [if_pos h2]; exact .inl rfl
  rw [if_neg h2]
  cases hm : summarize (buildTextToSummarize fullText cp) with
  | ok s' => exact .inr rfl
  | error msg =>
    by_cases he : isTooLargeMsg msg <;> by_cases hp : cp.previousSummary = [] <;>
      simp [he, hp]

/-- The head of a checkpoint trace is its starting checkpoint. -/
theorem checkpointTrace_head (cp : SummaryCheckpoint) (steps : List SummaryStep) :
    (checkpointTrace cp steps).head? = some cp := by
  rcases steps with _ | ⟨⟨t, o⟩, rest⟩ <;> rfl

/-- Monotonicity of the checkpoint along any step sequence whose text
lengths are non-decreasing and dominate the starting checkpoint. -/
theorem checkpointTrace_mono (steps : List SummaryStep) :
    ∀ cp : SummaryCheckpoint,
      (∀ p ∈ steps.head?, cp.summarizedUpTo ≤ p.1.length) →
      List.Chain' (fun a b => a.1.length ≤ b.1.length) steps →
      List.Chain' (fun a b : SummaryCheckpoint => a.summarizedUpTo ≤ b.summarizedUpTo)
        (checkpointTrace cp steps) := by
  induction steps with
  | nil => intro cp _ _; exact List.chain'_singleton cp
  | cons p rest ih =>
    rcases p with ⟨t, o⟩
    intro cp hcp hmono
    have hct : cp.summarizedUpTo ≤ t.length := hcp (t, o) rfl
    have hcases := summarize_checkpoint_upTo_cases t cp o
    have hle : cp.summarizedUpTo
        ≤ (summarizeTextWithCheckpoint t cp o).checkpoint.summarizedUpTo := by
      rcases hcases with h | h <;> omega
    have hub : (summarizeTextWithCheckpoint t cp o).checkpoint.summarizedUpTo ≤ t.length := by
      rcases hcases with h | h <;> omega
    show List.Chain' _
      (cp :: checkpointTrace (summarizeTextWithCheckpoint t cp o).checkpoint rest)
    rw [List.chain'_cons']
    refine ⟨?_, ?_⟩
    · intro y hy
      rw [checkpointTrace_head] at hy
      cases hy
      exact hle
    · refine ih _ ?_ hmono.tail
      intro q hq
      have hts : t.length ≤ q.1.length := by
        rcases rest with _ | ⟨q', rest'⟩
        · cases hq
        · cases hq
          exact (List.chain'_cons.mp hmono).1
      omega

/-- C4: starting from the initial empty checkpoint, along any sequence
of summary-update calls whose `fullConcatenatedText` lengths are
non-decreasing, `summarizedUpTo` never decreases — whether each call
succeeds or fails. -/
theorem checkpoint_monotone (steps : List SummaryStep)
    (hmono : List.Chain' (fun a b => a.1.length ≤ b.1.length) steps) :
    List.Chain' (fun a b : SummaryCheckpoint => a.summarizedUpTo ≤ b.summarizedUpTo)
      (checkpointTrace ⟨0, []⟩ steps) :=
  checkpointTrace_mono steps ⟨0, []⟩ (fun p _ => Nat.zero_le p.1.length) hmono

/-- Witness for C4 on a concrete growing two-step sequence (one
successful call, one failing call). -/
theorem checkpoint_monotone_witness :
    List.Chain' (fun a b : SummaryStep => a.1.length ≤ b.1.length)
      [(fiftyChars, constSummaryOracle), (List.replicate 60 'a', failingSummaryOracle)] ∧
    List.Chain' (fun a b : SummaryCheckpoint => a.summarizedUpTo ≤ b.summarizedUpTo)
      (checkpointTrace ⟨0, []⟩
        [(fiftyChars, constSummaryOracle), (List.replicate 60 'a', failingSummaryOracle)]) :=
  ⟨List.chain'_cons.mpr ⟨by decide, List.chain'_singleton _⟩,
    checkpoint_monotone _ (List.chain'_cons.mpr ⟨by decide, List.chain'_singleton _⟩)⟩

/-- Removing a freshly appended entry by its identifier restores the
original transcript when the identifier was fresh. -/
theorem abortRemove_append_self (chunkId : Nat) (l0 : List ProcessedChunk)
    (x : ProcessedChunk) (hx : x.id = chunkId)
    (hfresh : ∀ c ∈ l0, c.id ≠ chunkId) :
    abortRemove chunkId (l0 ++ [x]) = l0 := by
  unfold abortRemove
  rw [List.filter_append]
  have h1 : List.filter (fun c => c.id ≠ chunkId) l0 = l0 :=
    List.filter_eq_self.mpr (fun c hc => by simpa using hfresh c hc)
  have h2 : List.filter (fun c => c.id ≠ chunkId) [x] = [] := by simp [hx]
  rw [h1, h2, List.append_nil]

/-- The mid-flight transcription update touches only the entry with the
call's identifier, so removing that identifier afterwards gives the
same transcript as removing it directly. -/
theorem abortRemove_setTranscriptionResult (chunkId : Nat) (text : List Char)
    (isProvisional : Bool) (l : List ProcessedChunk) :
    abortRemove chunkId (setTranscriptionResult chunkId text isProvisional l)
      = abortRemove chunkId l := by
  induction l with
  | nil => rfl
  | cons c t ih =>
    by_cases hc : c.id = chunkId <;>
      simp [abortRemove, setTranscriptionResult, hc] at ih ⊢ <;>
      exact ih

set_option maxHeartbeats 2000000 in
/-- C2 (amended): a provisional `processChunk` call that terminates
through one of its cancellation-token checks (rather than through a
collaborator rejection arriving at the same suspension point) performs
no lasting transcript mutation: afterwards the transcript equals the
prior one, and in particular no entry with the call's identifier
appears (so none is marked failed). -/
theorem processChunk_cancel_no_trace
    (l0 : List ProcessedChunk) (audioBlob : Blob) (isProvisional : Bool)
    (segmentId : Option Nat) (chunkId : Nat) (ts : Int) (abortAt : Option Nat)
    (lmCreate : Except (List Char) Unit) (promptRes : Except (List Char) (List Char))
    (trCreate : Except (List Char) Unit) (translateRes : Except (List Char) (List Char))
    (hfresh : ∀ c ∈ l0, c.id ≠ chunkId)
    (habort : (processChunk l0 audioBlob isProvisional segmentId chunkId ts abortAt
        lmCreate promptRes trCreate translateRes).outcome = .aborted) :
    (processChunk l0 audioBlob isProvisional segmentId chunkId ts abortAt
        lmCreate promptRes trCreate translateRes).chunks = l0 ∧
    ∀ c ∈ (processChunk l0 audioBlob isProvisional segmentId chunkId ts abortAt
        lmCreate promptRes trCreate translateRes).chunks, c.id ≠ chunkId := by
  have hchunks : (processChunk l0 audioBlob isProvisional segmentId chunkId ts abortAt
      lmCreate promptRes trCreate translateRes).chunks = l0 := by
    revert habort
    simp only [processChunk]
    repeat' split
    all_goals intro habort
    all_goals
      first
      | rfl
      | (simp at habort; done)
      | exact abortRemove_append_self _ _ _ rfl hfresh
      | (rw [abortRemove_setTranscriptionResult];
         exact abortRemove_append_self _ _ _ rfl hfresh)
  refine ⟨hchunks, ?_⟩
  rw [hchunks]
  exact hfresh

/-- Witness for the amended C2: a 1000-byte provisional chunk whose
token is aborted before the first check leaves the transcript empty. -/
theorem processChunk_cancel_no_trace_witness :
    (processChunk [] blob1000 true (some 1) 7 0 (some 0)
        (.ok ()) (.ok []) (.ok ()) (.ok [])).outcome = .aborted ∧
    (processChunk [] blob1000 true (some 1) 7 0 (some 0)
        (.ok ()) (.ok []) (.ok ()) (.ok [])).chunks = [] :=
  have habort : (processChunk [] blob1000 true (some 1) 7 0 (some 0)
      (.ok ()) (.ok []) (.ok ()) (.ok [])).outcome = .aborted := by
    simp only [processChunk, Blob.size, blob1000, List.length_replicate]
    norm_num [abortSeen]
  ⟨habort,
    (processChunk_cancel_no_trace [] blob1000 true (some 1) 7 0 (some 0)
      (.ok ()) (.ok []) (.ok ()) (.ok []) (by simp) habort).1⟩

/-- C2 (counterexample): the cancellation token is triggered during the
first collaborator await (`abortAt = some 1`, i.e. before the call
completes), but that await itself rejects with `boom`; the rejection —
not the abort check — resumes the task, so the `catch` takes the
non-`ABORTED` branch and the entry with the call's identifier remains
in the transcript, marked failed. -/
theorem processChunk_abort_race_keeps_failed_entry :
    (processChunk [] blob1000 true (some 1) 7 0 (some 1)
        (.error "boom".data) (.ok []) (.ok ()) (.ok [])).chunks
      = [{ id := 7, timestamp := 0,
            transcription := ⟨[], false, some "boom".data, .confirmed⟩,
            translation := ⟨[], false, none⟩,
            audioBlob := some blob1000, segmentId := some 1 }] := by
  simp only [processChunk, Blob.size, blob1000, List.length_replicate]
  norm_num [abortSeen, markChunkError]

theorem vadStep_stopped (θ dur t0 : Int) (st : VadState) (p : Int × Int)
    (h : st.stopped = true) : vadStep θ dur t0 st p = st := by
  simp only [vadStep]
  rw [if_pos h]

/-- A stopped analysis loop stays stopped over any further frames. -/
theorem vadFoldl_stopped (θ dur t0 : Int) (L : List (Int × Int)) :
    ∀ st : VadState, st.stopped = true →
      L.foldl (vadStep θ dur t0) st = st := by
  induction L with
  | nil => intro st _; rfl
  | cons p L ih =>
    intro st h
    rw [List.foldl_cons, vadStep_stopped θ dur t0 st p h, ih st h]

/-- A silent frame on a running loop that has detected speech, with no
silence timer set, starts the silence timer once past the minimum
recording duration. -/
theorem vadStep_silent_none (θ dur t0 : Int) (st : VadState) (now avg : Int)
    (hstop : st.stopped = false) (hsil : avg ≤ θ) (hn : st.silenceStart = none) :
    vadStep θ dur t0 st (now, avg) =
      if st.hasSpoken = true ∧ now - t0 > MIN_RECORDING_DURATION then
        { st with silenceStart := some now }
      else st := by
  simp only [vadStep]
  rw [if_neg (by simp [hstop]), if_neg (by omega), hn]

/-- A silent frame on a running loop with the silence timer set stops
the recorder once the silence outlasts `silenceDuration`. -/
theorem vadStep_silent_some (θ dur t0 : Int) (st : VadState) (now avg s : Int)
    (hstop : st.stopped = false) (hsil : avg ≤ θ) (hs : st.silenceStart = some s) :
    vadStep θ dur t0 st (now, avg) =
      if st.hasSpoken = true ∧ now - t0 > MIN_RECORDING_DURATION then
        (if now - s > dur then { st with stopped := true } else st)
      else st := by
  simp only [vadStep]
  rw [if_neg (by simp [hstop]), if_neg (by omega), hs]

/-- Invariant of the analysis loop over silent frames whose times are
bounded by `B`: the loop either stops, or keeps the has-spoken flag
with a silence timer that is unset or bounded by `B`. -/
theorem vadFoldl_silent_bound (θ dur t0 B : Int) (L : List (Int × Int)) :
    ∀ st : VadState,
      (∀ p ∈ L, p.2 ≤ θ) → (∀ p ∈ L, p.1 ≤ B) →
      st.hasSpoken = true →
      (st.silenceStart = none ∨ ∃ s, st.silenceStart = some s ∧ s ≤ B) →
      (L.foldl (vadStep θ dur t0) st).stopped = true ∨
      ((L.foldl (vadStep θ dur t0) st).stopped = false ∧
        (L.foldl (vadStep θ dur t0) st).hasSpoken = true ∧
        ((L.foldl (vadStep θ dur t0) st).silenceStart = none ∨
          ∃ s, (L.foldl (vadStep θ dur t0) st).silenceStart = some s ∧ s ≤ B)) := by
  induction L with
  | nil =>
    intro st _ _ hsp hinv
    by_cases hstop : st.stopped = true
    · exact .inl hstop
    · exact .inr ⟨Bool.not_eq_true _ ▸ hstop, hsp, hinv⟩
  | cons p L ih =>
    rcases p with ⟨pn, pa⟩
    intro st hsil htime hsp hinv
    rw [List.foldl_cons]
    by_cases hstop : st.stopped = true
    · rw [vadStep_stopped θ dur t0 st (pn, pa) hstop, vadFoldl_stopped θ dur t0 L st hstop]
      exact .inl hstop
    have hstop' : st.stopped = false := by
      cases h : st.stopped
      · rfl
      · exact absurd h hstop
    have hp2 : pa ≤ θ := hsil (pn, pa) (List.mem_cons_self _ L)
    have hp1 : pn ≤ B := htime (pn, pa) (List.mem_cons_self _ L)
    have hsil' : ∀ q ∈ L, q.2 ≤ θ := fun q hq => hsil q (List.mem_cons_of_mem _ hq)
    have htime' : ∀ q ∈ L, q.1 ≤ B := fun q hq => htime q (List.mem_cons_of_mem _ hq)
    by_cases hc : st.hasSpoken = true ∧ pn - t0 > MIN_RECORDING_DURATION
    · rcases hinv with hn | ⟨s, hs, hsB⟩
      · have hstep : vadStep θ dur t0 st (pn, pa) = { st with silenceStart := some pn } := by
          rw [vadStep_silent_none θ dur t0 st pn pa hstop' hp2 hn, if_pos hc]
        rw [hstep]
        exact ih _ hsil' htime' hsp (.inr ⟨pn, rfl, hp1⟩)
      · by_cases hd : pn - s > dur
        · have hstep : vadStep θ dur t0 st (pn, pa) = { st with stopped := true } := by
            rw [vadStep_silent_some θ dur t0 st pn pa s hstop' hp2 hs, if_pos hc, if_pos hd]
          rw [hstep, vadFoldl_stopped θ dur t0 L _ rfl]
          exact .inl rfl
        · have hstep : vadStep θ dur t0 st (pn, pa) = st := by
            rw [vadStep_silent_some θ dur t0 st pn pa s hstop' hp2 hs, if_pos hc, if_neg hd]
          rw [hstep]
          exact ih st hsil' htime' hsp (.inr ⟨s, hs, hsB⟩)
    · rcases hinv with hn | ⟨s, hs, hsB⟩
      · have hstep : vadStep θ dur t0 st (pn, pa) = st := by
          rw [vadStep_silent_none θ dur t0 st pn pa hstop' hp2 hn, if_neg hc]
        rw [hstep]
        exact ih st hsil' htime' hsp (.inl hn)
      · have hstep : vadStep θ dur t0 st (pn, pa) = st := by
          rw [vadStep_silent_some θ dur t0 st pn pa s hstop' hp2 hs, if_neg hc]
        rw [hstep]
        exact ih st hsil' htime' hsp (.inr ⟨s, hs, hsB⟩)

/-- Over silent frames, a running loop with the silence timer set
either stops or is left completely unchanged. -/
theorem vadFoldl_silent_fixed (θ dur t0 : Int) (L : List (Int × Int)) :
    ∀ (st : VadState) (s : Int),
      (∀ p ∈ L, p.2 ≤ θ) → st.hasSpoken = true → st.silenceStart = some s →
      st.stopped = false →
      (L.foldl (vadStep θ dur t0) st).stopped = true ∨
      L.foldl (vadStep θ dur t0) st = st := by
  induction L with
  | nil => intro st s _ _ _ _; exact .inr rfl
  | cons p L ih =>
    rcases p with ⟨pn, pa⟩
    intro st s hsil hsp hs hstop
    rw [List.foldl_cons]
    have hp2 : pa ≤ θ := hsil (pn, pa) (List.mem_cons_self _ L)
    have hsil' : ∀ q ∈ L, q.2 ≤ θ := fun q hq => hsil q (List.mem_cons_of_mem _ hq)
    by_cases hc : st.hasSpoken = true ∧ pn - t0 > MIN_RECORDING_DURATION
    · by_cases hd : pn - s > dur
      · have hstep : vadStep θ dur t0 st (pn, pa) = { st with stopped := true } := by
          rw [vadStep_silent_some θ dur t0 st pn pa s hstop hp2 hs, if_pos hc, if_pos hd]
        rw [hstep, vadFoldl_stopped θ dur t0 L _ rfl]
        exact .inl rfl
      · have hstep : vadStep θ dur t0 st (pn, pa) = st := by
          rw [vadStep_silent_some θ dur t0 st pn pa s hstop hp2 hs, if_pos hc, if_neg hd]
        rw [hstep]
        exact ih st s hsil' hsp hs hstop
    · have hstep : vadStep θ dur t0 st (pn, pa) = st := by
        rw [vadStep_silent_some θ dur t0 st pn pa s hstop hp2 hs, if_neg hc]
      rw [hstep]
      exact ih st s hsil' hsp hs hstop

/-- A silent frame leaves the freshly started loop in its initial
state (no speech yet, so no silence timer is ever started). -/
theorem vadStep_init (θ dur t0 : Int) (p : Int × Int) (hsil : p.2 ≤ θ) :
    vadStep θ dur t0 initVadState p = initVadState := by
  simp only [vadStep]
  rw [if_neg (by simp [initVadState]), if_neg (by omega),
    if_neg (by simp [initVadState])]

/-- An amplitude trace that never exceeds the threshold leaves the
analysis state untouched; in particular the has-spoken flag stays
false. -/
theorem vadRun_all_silent (θ dur t0 : Int) (frames : List (Int × Int))
    (hsil : ∀ p ∈ frames, p.2 ≤ θ) : vadRun θ dur t0 frames = initVadState := by
  unfold vadRun
  induction frames with
  | nil => rfl
  | cons p L ih =>
    rw [List.foldl_cons, vadStep_init θ dur t0 p (hsil p (List.mem_cons_self p L))]
    exact ih (fun q hq => hsil q (List.mem_cons_of_mem p hq))

/-- Continuation argument: from a running state with speech detected
and the silence timer at `s ≤ tj`, further silent frames followed by a
frame at `tk` with `tk - tj > silenceDuration` stop the recorder. -/
theorem vadFoldl_tail_stops (θ dur t0 : Int) (cs ds : List (Int × Int)) (tk ak tj s : Int)
    (st2 : VadState) (hdur : 0 ≤ dur)
    (hs2 : st2.stopped = false) (hsp2 : st2.hasSpoken = true)
    (hss2 : st2.silenceStart = some s) (hsB : s ≤ tj)
    (hsilcs : ∀ p ∈ cs, p.2 ≤ θ) (hak : ak ≤ θ)
    (htj : tj - t0 > MIN_RECORDING_DURATION) (htk : tk - tj > dur) :
    (List.foldl (vadStep θ dur t0) st2 (cs ++ (tk, ak) :: ds)).stopped = true := by
  rw [List.foldl_append]
  have hB := vadFoldl_silent_fixed θ dur t0 cs st2 s hsilcs hsp2 hss2 hs2
  rw [List.foldl_cons]
  rcases hB with hstop3 | heq
  · rw [vadStep_stopped θ dur t0 _ (tk, ak) hstop3,
      vadFoldl_stopped θ dur t0 ds _ hstop3]
    exact hstop3
  · rw [heq]
    have hstep : vadStep θ dur t0 st2 (tk, ak) = { st2 with stopped := true } := by
      rw [vadStep_silent_some θ dur t0 st2 tk ak s hs2 hak hss2,
        if_pos ⟨hsp2, by omega⟩, if_pos (by omega)]
    rw [hstep, vadFoldl_stopped θ dur t0 ds _ rfl]

/-- C6: in VAD mode, every amplitude trace with a sample above
`silenceThreshold` followed only by samples at or below it, containing
a silent frame past the 500 ms minimum recording duration and a later
frame more than `silenceDuration` after it, stops the recorder (closes
the chunk); and a chunk whose trace never exceeds `silenceThreshold`
is never forwarded for processing when it closes. -/
theorem vad_silence_closes_and_silent_chunk_discarded :
    (∀ (θ dur t0 : Int) (as bs cs ds : List (Int × Int)) (ti ai tj aj tk ak : Int),
      0 ≤ dur → ai > θ →
      (∀ p ∈ bs ++ ((tj, aj) :: (cs ++ ((tk, ak) :: ds))), p.2 ≤ θ) →
      (∀ p ∈ bs, p.1 ≤ tj) →
      tj - t0 > MIN_RECORDING_DURATION →
      tk - tj > dur →
      (vadRun θ dur t0
        (as ++ ((ti, ai) :: (bs ++ ((tj, aj) :: (cs ++ ((tk, ak) :: ds))))))).stopped
        = true)
    ∧ (∀ (θ dur t0 : Int) (frames : List (Int × Int)) (recorded : List Blob),
      (∀ p ∈ frames, p.2 ≤ θ) →
      onStopForwardedBlob .vad (vadRun θ dur t0 frames).hasSpoken recorded = none) := by
  constructor
  · intro θ dur t0 as bs cs ds ti ai tj aj tk ak hdur hai hsil hbs htj htk
    unfold vadRun
    rw [List.foldl_append, List.foldl_cons]
    by_cases h0 : (List.foldl (vadStep θ dur t0) initVadState as).stopped = true
    · rw [vadStep_stopped θ dur t0 _ (ti, ai) h0, vadFoldl_stopped θ dur t0 _ _ h0]
      exact h0
    · have h0' : (List.foldl (vadStep θ dur t0) initVadState as).stopped = false := by
        cases h : (List.foldl (vadStep θ dur t0) initVadState as).stopped
        · rfl
        · exact absurd h h0
      have hstep0 : vadStep θ dur t0 (List.foldl (vadStep θ dur t0) initVadState as) (ti, ai)
          = ⟨true, none, false⟩ := by
        simp only [vadStep]
        rw [if_neg (by simp [h0']), if_pos hai]
      rw [hstep0, List.foldl_append]
      have hsilbs : ∀ p ∈ bs, p.2 ≤ θ := fun p hp => hsil p (List.mem_append_left _ hp)
      have hA := vadFoldl_silent_bound θ dur t0 tj bs ⟨true, none, false⟩ hsilbs hbs rfl
        (.inl rfl)
      rw [List.foldl_cons]
      have haj : aj ≤ θ :=
        hsil (tj, aj) (List.mem_append_right _ (List.mem_cons_self _ _))
      have hak : ak ≤ θ :=
        hsil (tk, ak) (List.mem_append_right _ (List.mem_cons_of_mem _
          (List.mem_append_right _ (List.mem_cons_self _ _))))
      have hsilcs : ∀ p ∈ cs, p.2 ≤ θ := fun p hp =>
        hsil p (List.mem_append_right _ (List.mem_cons_of_mem _ (List.mem_append_left _ hp)))
      rcases hA with hstop1 | ⟨hs1, hsp1, hinv1⟩
      · rw [vadStep_stopped θ dur t0 _ (tj, aj) hstop1,
          vadFoldl_stopped θ dur t0 _ _ hstop1]
        exact hstop1
      · rcases hinv1 with hn | ⟨s, hs, hsB⟩
        · have hstep1 : vadStep θ dur t0 (List.foldl (vadStep θ dur t0) ⟨true, none, false⟩ bs)
              (tj, aj)
              = { List.foldl (vadStep θ dur t0) ⟨true, none, false⟩ bs with
                  silenceStart := some tj } := by
            rw [vadStep_silent_none θ dur t0 _ tj aj hs1 haj hn, if_pos ⟨hsp1, htj⟩]
          rw [hstep1]
          exact vadFoldl_tail_stops θ dur t0 cs ds tk ak tj tj _ hdur hs1 hsp1 rfl le_rfl
            hsilcs hak htj htk
        · by_cases hd : tj - s > dur
          · have hstep1 : vadStep θ dur t0
                (List.foldl (vadStep θ dur t0) ⟨true, none, false⟩ bs) (tj, aj)
                = { List.foldl (vadStep θ dur t0) ⟨true, none, false⟩ bs with
                    stopped := true } := by
              rw [vadStep_silent_some θ dur t0 _ tj aj s hs1 haj hs, if_pos ⟨hsp1, htj⟩,
                if_pos hd]
            rw [hstep1, vadFoldl_stopped θ dur t0 _ _ rfl]
          · have hstep1 : vadStep θ dur t0
                (List.foldl (vadStep θ dur t0) ⟨true, none, false⟩ bs) (tj, aj)
                = List.foldl (vadStep θ dur t0) ⟨true, none, false⟩ bs := by
              rw [vadStep_silent_some θ dur t0 _ tj aj s hs1 haj hs, if_pos ⟨hsp1, htj⟩,
                if_neg hd]
            rw [hstep1]
            exact vadFoldl_tail_stops θ dur t0 cs ds tk ak tj s _ hdur hs1 hsp1 hs hsB
              hsilcs hak htj htk
  · intro θ dur t0 frames recorded hsil
    rw [vadRun_all_silent θ dur t0 frames hsil]
    simp [onStopForwardedBlob, initVadState]

/-- Witness for C6 at a concrete trace (speech at 100 ms, silence from
700 ms, closing frame at 2300 ms) and a concrete all-silent trace. -/
theorem vad_silence_closes_witness :
    (vadRun 15 1500 0 [(100, 20), (700, 5), (2300, 5)]).stopped = true ∧
    onStopForwardedBlob .vad (vadRun 15 1500 0 [(100, 3)]).hasSpoken [⟨[0, 1]⟩] = none :=
  ⟨vad_silence_closes_and_silent_chunk_discarded.1 15 1500 0 [] [] [] [] 100 20 700 5 2300 5
      (by decide) (by decide) (by decide) (by decide) (by decide) (by decide),
    vad_silence_closes_and_silent_chunk_discarded.2 15 1500 0 [(100, 3)] [⟨[0, 1]⟩]
      (by decide)⟩

end VoicePipeline
